import Mathlib

/-!
# Smile Design Manhattan API: the visit aggregate of `src/api/data.js`

A shallow embedding of the data access layer `src/api/data.js`.

* The SQLite database file is an explicit value `Db`: one list of rows per
  table, kept in rowid order, which is the order in which a `SELECT` without
  `ORDER BY` scans a table.
* `run(sql, params)` is `run` on a `World`: the database together with the log
  of the statements that `run` has executed, each with the database it was
  executed on and the `{ id, changes }` value it returned.
* `get(sql, params)` is the first matching row (`List.find?`), `all(sql, params)`
  is every matching row (`List.filter`).
* A JavaScript value bound to a parameter is `Option`: `none` is `null` or
  `undefined`, both of which `better-sqlite3` binds as SQL `NULL`. A function
  result that may be `undefined` is `Option` as well.
* A thrown exception is `Except.error`.

The `CREATE TABLE` statements of `Clients`, `Providers`, `Visits`,
`VisitDetails` and `VisitImages` are not part of the repository. Whether their
integer keys are declared `AUTOINCREMENT` is therefore a field of each table,
and every theorem holds for both settings. Their other columns are nullable
and no foreign key is enforced. `Billables` follows the `CREATE TABLE` of
`src/api/import_billables.js`. Values are typed: keys are integers, text is a
string, quantities and costs are integers; the rowid space is not exhausted.
-/

namespace SmileDesign

/-! ## Rows -/

/-- Row of `Clients`. -/
structure ClientRow where
  ClientId : Int
  FirstName : Option String
  LastName : Option String
  DOB : Option String
  Phone : Option String
  Email : Option String
  Address : Option String
deriving DecidableEq, Repr

/-- Row of `Providers`. -/
structure ProviderRow where
  ProviderId : Int
  FirstName : Option String
  LastName : Option String
  Specialty : Option String
  Phone : Option String
  Email : Option String
deriving DecidableEq, Repr

/-- Row of `Billables`; the key is the business code, a `TEXT PRIMARY KEY`, which
SQLite lets be `NULL`. -/
structure BillableRow where
  BillableCode : Option String
  Description : Option String
  Cost : Option Int
deriving DecidableEq, Repr

/-- Row of `Visits`. -/
structure VisitRow where
  VisitId : Int
  ClientId : Option Int
  ProviderId : Option Int
  VisitDate : Option String
  Paid : Option Int
  Notes : Option String
deriving DecidableEq, Repr

/-- Row of `VisitDetails`. The name of its integer key is not visible in the
source (`SELECT *`); it is called `DetailId` here. -/
structure VisitDetailRow where
  DetailId : Int
  VisitId : Option Int
  BillableCode : Option String
  Quantity : Option Int
deriving DecidableEq, Repr

/-- Row of `VisitImages`. -/
structure VisitImageRow where
  ImageId : Int
  VisitId : Option Int
  ImageName : Option String
  ImageType : Option String
  ImageData : Option String
deriving DecidableEq, Repr

/-- Result row of `SELECT ImageId, ImageName, ImageType FROM VisitImages`: there is
no `ImageData` column. -/
structure VisitImageMeta where
  ImageId : Int
  ImageName : Option String
  ImageType : Option String
deriving DecidableEq, Repr

/-- The value `{ ...visit, details, images }` built by `getVisitById`. -/
structure VisitAggregate extends VisitRow where
  details : List VisitDetailRow
  images : List VisitImageMeta
deriving DecidableEq, Repr

/-! ## Tables with a generated integer key -/

/-- Table whose key is an `INTEGER PRIMARY KEY`. `seq` is the row of
`sqlite_sequence` for the table; it is read and written only when the key is
declared `AUTOINCREMENT`. -/
structure Table (α : Type) where
  autoincrement : Bool
  seq : Int
  rows : List α
deriving DecidableEq, Repr

/-- Largest rowid in use, `none` for an empty table. -/
def maxRowid : List Int → Option Int
  | [] => none
  | k :: ks =>
    match maxRowid ks with
    | none => some k
    | some m => some (max k m)

/-- The rowid SQLite gives to a row inserted without a key: `1` in an empty
table, otherwise one more than the largest rowid in use; with `AUTOINCREMENT`,
also larger than every rowid the table has ever held. -/
def Table.nextRowid {α : Type} (key : α → Int) (t : Table α) : Int :=
  let base : Int :=
    match maxRowid (t.rows.map key) with
    | none => 1
    | some m => m + 1
  if t.autoincrement then max base (t.seq + 1) else base

/-- Append the row built from the generated rowid. -/
def Table.insert {α : Type} (key : α → Int) (t : Table α) (mk : Int → α) : Table α :=
  let id := t.nextRowid key
  { t with
    seq := if t.autoincrement then id else t.seq
    rows := t.rows ++ [mk id] }

/-- Keep the rows for which the `WHERE` clause of a `DELETE` is not true. -/
def Table.delete {α : Type} (t : Table α) (cond : α → Bool) : Table α :=
  { t with rows := t.rows.filter (fun r => !cond r) }

/-- Number of rows for which the `WHERE` clause is true. -/
def Table.count {α : Type} (t : Table α) (cond : α → Bool) : Nat :=
  (t.rows.filter cond).length

/-- SQL `column = ?`: true only when both sides are non-NULL and equal. -/
def sqlEq {κ : Type} [DecidableEq κ] : Option κ → Option κ → Bool
  | some a, some b => decide (a = b)
  | _, _ => false

/-! ## The database -/

/-- The contents of `database.sqlite` that `data.js` reads and writes for the
visit aggregate. -/
structure Db where
  Clients : Table ClientRow
  Providers : Table ProviderRow
  Billables : List BillableRow
  Visits : Table VisitRow
  VisitDetails : Table VisitDetailRow
  VisitImages : Table VisitImageRow
deriving DecidableEq, Repr

/-- The writing statements that `data.js` passes to `run`, with their bound
parameters. -/
inductive Stmt where
  | insertClients (FirstName LastName DOB Phone Email Address : Option String)
  | insertProviders (FirstName LastName Specialty Phone Email : Option String)
  | insertBillables (BillableCode Description : Option String) (Cost : Option Int)
  | insertVisits (ClientId ProviderId : Option Int) (VisitDate : Option String)
      (Paid : Option Int) (Notes : Option String)
  | insertVisitDetails (VisitId : Option Int) (BillableCode : Option String)
      (Quantity : Option Int)
  | insertVisitImages (VisitId : Option Int) (ImageName ImageType ImageData : Option String)
  | deleteVisitDetails (VisitId : Option Int)
  | deleteVisitImages (VisitId : Option Int)
  | deleteVisits (VisitId : Option Int)
deriving DecidableEq, Repr

/-- Exceptions. -/
inductive Err where
  | constraint
  | typeError
deriving DecidableEq, Repr

/-- The value `{ id: info.lastInsertRowid, changes: info.changes }` returned by
`run`. `id` is the generated key after an insert into a table with a generated
key; otherwise it is a stale value that no caller reads, modelled as `none`. -/
structure RunInfo where
  id : Option Int
  changes : Nat
deriving DecidableEq, Repr

/-- Effect of one statement on the database. -/
def exec (db : Db) : Stmt → Except Err (Db × RunInfo)
  | .insertClients f l d p e a =>
    let t := db.Clients.insert ClientRow.ClientId (fun id => ⟨id, f, l, d, p, e, a⟩)
    .ok ({ db with Clients := t }, ⟨some (db.Clients.nextRowid ClientRow.ClientId), 1⟩)
  | .insertProviders f l s p e =>
    let t := db.Providers.insert ProviderRow.ProviderId (fun id => ⟨id, f, l, s, p, e⟩)
    .ok ({ db with Providers := t }, ⟨some (db.Providers.nextRowid ProviderRow.ProviderId), 1⟩)
  | .insertBillables code desc cost =>
    -- Description TEXT NOT NULL, Cost REAL NOT NULL, BillableCode TEXT PRIMARY KEY
    if desc.isNone || cost.isNone then .error .constraint
    else if db.Billables.any (fun r => sqlEq r.BillableCode code) then .error .constraint
    else .ok ({ db with Billables := db.Billables ++ [⟨code, desc, cost⟩] }, ⟨none, 1⟩)
  | .insertVisits c p date paid notes =>
    let t := db.Visits.insert VisitRow.VisitId (fun id => ⟨id, c, p, date, paid, notes⟩)
    .ok ({ db with Visits := t }, ⟨some (db.Visits.nextRowid VisitRow.VisitId), 1⟩)
  | .insertVisitDetails v code q =>
    let t := db.VisitDetails.insert VisitDetailRow.DetailId (fun id => ⟨id, v, code, q⟩)
    .ok ({ db with VisitDetails := t },
         ⟨some (db.VisitDetails.nextRowid VisitDetailRow.DetailId), 1⟩)
  | .insertVisitImages v name type data =>
    let t := db.VisitImages.insert VisitImageRow.ImageId (fun id => ⟨id, v, name, type, data⟩)
    .ok ({ db with VisitImages := t },
         ⟨some (db.VisitImages.nextRowid VisitImageRow.ImageId), 1⟩)
  | .deleteVisitDetails v =>
    let t := db.VisitDetails.delete (fun r => sqlEq r.VisitId v)
    .ok ({ db with VisitDetails := t },
         ⟨none, db.VisitDetails.count (fun r => sqlEq r.VisitId v)⟩)
  | .deleteVisitImages v =>
    let t := db.VisitImages.delete (fun r => sqlEq r.VisitId v)
    .ok ({ db with VisitImages := t },
         ⟨none, db.VisitImages.count (fun r => sqlEq r.VisitId v)⟩)
  | .deleteVisits v =>
    let t := db.Visits.delete (fun r => sqlEq (some r.VisitId) v)
    .ok ({ db with Visits := t },
         ⟨none, db.Visits.count (fun r => sqlEq (some r.VisitId) v)⟩)

/-- One executed statement: the database it ran on, the statement, and what `run`
returned for it. -/
structure LogEntry where
  before : Db
  stmt : Stmt
  info : RunInfo
deriving DecidableEq, Repr

/-- The database and the statements executed so far, oldest first. -/
structure World where
  db : Db
  log : List LogEntry
deriving DecidableEq, Repr

/-- `run(sql, params)`. -/
def run (w : World) (stmt : Stmt) : Except Err (World × RunInfo) :=
  match exec w.db stmt with
  | .error e => .error e
  | .ok (db, info) => .ok (⟨db, w.log ++ [⟨w.db, stmt, info⟩]⟩, info)

/-! ## `src/api/data.js` -/

/-- `getClientById(id)`. -/
def getClientById (db : Db) (id : Option Int) : Option ClientRow :=
  db.Clients.rows.find? (fun r => sqlEq (some r.ClientId) id)

/-- `getProviderById(id)`. -/
def getProviderById (db : Db) (id : Option Int) : Option ProviderRow :=
  db.Providers.rows.find? (fun r => sqlEq (some r.ProviderId) id)

/-- `getBillableByCode(code)`. -/
def getBillableByCode (db : Db) (code : Option String) : Option BillableRow :=
  db.Billables.find? (fun r => sqlEq r.BillableCode code)

/-- Argument of `createClient`; a property that is left out is `none`. -/
structure ClientData where
  firstName : Option String := none
  lastName : Option String := none
  DOB : Option String := none
  Phone : Option String := none
  Email : Option String := none
  Address : Option String := none
deriving DecidableEq, Repr

/-- Argument of `createProvider`. -/
structure ProviderData where
  firstName : Option String := none
  lastName : Option String := none
  Specialty : Option String := none
  Phone : Option String := none
  Email : Option String := none
deriving DecidableEq, Repr

/-- Argument of `createBillable`. -/
structure BillableData where
  BillableCode : Option String := none
  Description : Option String := none
  Cost : Option Int := none
deriving DecidableEq, Repr

/-- `createClient(data)`. -/
def createClient (w : World) (data : ClientData) : Except Err (World × Option ClientRow) :=
  match run w (.insertClients data.firstName data.lastName data.DOB data.Phone data.Email
      data.Address) with
  | .error e => .error e
  | .ok (w1, result) => .ok (w1, getClientById w1.db result.id)

/-- `createProvider(data)`. -/
def createProvider (w : World) (data : ProviderData) :
    Except Err (World × Option ProviderRow) :=
  match run w (.insertProviders data.firstName data.lastName data.Specialty data.Phone
      data.Email) with
  | .error e => .error e
  | .ok (w1, result) => .ok (w1, getProviderById w1.db result.id)

/-- `createBillable(data)`. -/
def createBillable (w : World) (data : BillableData) :
    Except Err (World × Option BillableRow) :=
  match run w (.insertBillables data.BillableCode data.Description data.Cost) with
  | .error e => .error e
  | .ok (w1, _) => .ok (w1, getBillableByCode w1.db data.BillableCode)

/-- `ensureClientExists(id)`: the world after the call and the returned id.
Reading `c.ClientId` of an undefined `c` throws a `TypeError`. -/
def ensureClientExists (w : World) (id : Option Int) : Except Err (World × Option Int) :=
  match getClientById w.db id with
  | none =>
    match createClient w { firstName := some "Unknown", lastName := some "Unknown" } with
    | .error e => .error e
    | .ok (_, none) => .error .typeError
    | .ok (w1, some c) => .ok (w1, some c.ClientId)
  | some _ => .ok (w, id)

/-- `ensureProviderExists(id)`. -/
def ensureProviderExists (w : World) (id : Option Int) : Except Err (World × Option Int) :=
  match getProviderById w.db id with
  | none =>
    match createProvider w { firstName := some "Unknown", lastName := some "Unknown" } with
    | .error e => .error e
    | .ok (_, none) => .error .typeError
    | .ok (w1, some p) => .ok (w1, some p.ProviderId)
  | some _ => .ok (w, id)

/-- `ensureBillableExists(code)`: the world after the call and the value of the call.
The function has no `return` statement, so the value is `undefined` (`none`) on
both branches. -/
def ensureBillableExists (w : World) (code : Option String) :
    Except Err (World × Option (Option String)) :=
  match getBillableByCode w.db code with
  | none =>
    match createBillable w
        { BillableCode := code, Description := some "Auto created", Cost := some 0 } with
    | .error e => .error e
    | .ok (w1, _) => .ok (w1, none)
  | some _ => .ok (w, none)

/-- The projection `SELECT ImageId, ImageName, ImageType`. -/
def VisitImageRow.meta (r : VisitImageRow) : VisitImageMeta :=
  ⟨r.ImageId, r.ImageName, r.ImageType⟩

/-- `getVisitById(id)`. -/
def getVisitById (db : Db) (id : Option Int) : Option VisitAggregate :=
  match db.Visits.rows.find? (fun r => sqlEq (some r.VisitId) id) with
  | none => none
  | some visit =>
    let details := db.VisitDetails.rows.filter (fun r => sqlEq r.VisitId id)
    let images := (db.VisitImages.rows.filter (fun r => sqlEq r.VisitId id)).map
      VisitImageRow.meta
    some { toVisitRow := visit, details := details, images := images }

/-- `getImageById(id)`. -/
def getImageById (db : Db) (id : Option Int) : Option VisitImageRow :=
  db.VisitImages.rows.find? (fun r => sqlEq (some r.ImageId) id)

/-- One element of `details` in the argument of `createVisit`. -/
structure DetailInput where
  BillableCode : Option String := none
  Quantity : Option Int := none
deriving DecidableEq, Repr

/-- One element of `images` in the argument of `createVisit`. -/
structure ImageInput where
  name : Option String := none
  type : Option String := none
  data : Option String := none
deriving DecidableEq, Repr

/-- Argument of `createVisit`; `details` and `images` default to `[]`. -/
structure VisitInput where
  ClientId : Option Int := none
  ProviderId : Option Int := none
  VisitDate : Option String := none
  Paid : Option Bool := none
  Notes : Option String := none
  details : List DetailInput := []
  images : List ImageInput := []
deriving DecidableEq, Repr

/-- `Paid ? 1 : 0`. -/
def paidFlag : Option Bool → Int
  | some true => 1
  | _ => 0

/-- `d.Quantity || 1`: an absent quantity and the falsy quantity `0` give `1`. -/
def quantityOrDefault : Option Int → Int
  | none => 1
  | some q => if q = 0 then 1 else q

/-- `for (const d of details) { ensureBillableExists(d.BillableCode); }`. -/
def ensureBillables : World → List DetailInput → Except Err World
  | w, [] => .ok w
  | w, d :: ds =>
    match ensureBillableExists w d.BillableCode with
    | .error e => .error e
    | .ok (w1, _) => ensureBillables w1 ds

/-- `for (const d of details) { run('INSERT INTO VisitDetails ...', [visitId,
d.BillableCode, d.Quantity || 1]); }`. -/
def insertDetails (visitId : Option Int) : World → List DetailInput → Except Err World
  | w, [] => .ok w
  | w, d :: ds =>
    match run w (.insertVisitDetails visitId d.BillableCode
        (some (quantityOrDefault d.Quantity))) with
    | .error e => .error e
    | .ok (w1, _) => insertDetails visitId w1 ds

/-- `for (const img of images) { run('INSERT INTO VisitImages ...', [visitId,
img.name, img.type, img.data]); }`. -/
def insertImages (visitId : Option Int) : World → List ImageInput → Except Err World
  | w, [] => .ok w
  | w, img :: imgs =>
    match run w (.insertVisitImages visitId img.name img.type img.data) with
    | .error e => .error e
    | .ok (w1, _) => insertImages visitId w1 imgs

/-- `createVisit(data)`: the world after the call and the returned value. -/
def createVisit (w : World) (data : VisitInput) :
    Except Err (World × Option VisitAggregate) := do
  let (w1, ClientId) ← ensureClientExists w data.ClientId
  let (w2, ProviderId) ← ensureProviderExists w1 data.ProviderId
  let w3 ← ensureBillables w2 data.details
  let (w4, result) ← run w3 (.insertVisits ClientId ProviderId data.VisitDate
    (some (paidFlag data.Paid)) data.Notes)
  let visitId := result.id
  let w5 ← insertDetails visitId w4 data.details
  let w6 ← insertImages visitId w5 data.images
  pure (w6, getVisitById w6.db visitId)

/-- `deleteVisit(id)`. -/
def deleteVisit (w : World) (id : Option Int) : Except Err World := do
  let (w1, _) ← run w (.deleteVisitDetails id)
  let (w2, _) ← run w1 (.deleteVisitImages id)
  let (w3, _) ← run w2 (.deleteVisits id)
  pure w3

/-! ## Vocabulary of the statements about `createVisit` -/

/-- The statement is a write of reference resolution: an insert into `Clients`,
`Providers` or `Billables`. -/
def Stmt.isResolution : Stmt → Bool
  | .insertClients .. => true
  | .insertProviders .. => true
  | .insertBillables .. => true
  | _ => false

/-- The `VisitId` that the next insert into `Visits` generates. -/
def nextVisitId (db : Db) : Int := db.Visits.nextRowid VisitRow.VisitId

/-- The `ClientId` that the next insert into `Clients` generates. -/
def nextClientId (db : Db) : Int := db.Clients.nextRowid ClientRow.ClientId

/-- The `ProviderId` that the next insert into `Providers` generates. -/
def nextProviderId (db : Db) : Int := db.Providers.nextRowid ProviderRow.ProviderId

/-- What reference resolution guarantees for one billable code in a database: a row
carrying the code is in `Billables`, and a non-null code is found by
`getBillableByCode`. -/
def BillableResolved (db : Db) (code : Option String) : Prop :=
  (∃ row ∈ db.Billables, row.BillableCode = code) ∧
  (code ≠ none → getBillableByCode db code ≠ none)

/-- The columns of a `VisitDetails` row that `createVisit` supplies. -/
def VisitDetailRow.supplied (r : VisitDetailRow) : Option Int × Option String × Option Int :=
  (r.VisitId, r.BillableCode, r.Quantity)

/-- The columns of a `VisitImages` row that `createVisit` supplies. -/
def VisitImageRow.supplied (r : VisitImageRow) :
    Option Int × Option String × Option String × Option String :=
  (r.VisitId, r.ImageName, r.ImageType, r.ImageData)

/-- Referential integrity of the children: every `VisitDetails` row and every
`VisitImages` row carries the `VisitId` of a row of `Visits`. -/
def ChildrenReferenceVisits (db : Db) : Prop :=
  (∀ r ∈ db.VisitDetails.rows, ∃ v ∈ db.Visits.rows, r.VisitId = some v.VisitId) ∧
  (∀ r ∈ db.VisitImages.rows, ∃ v ∈ db.Visits.rows, r.VisitId = some v.VisitId)

/-- The `Visits` row that `createVisit` inserts, given the resolved references. -/
def visitRowOf (data : VisitInput) (c p : Int) (id : Int) : VisitRow :=
  ⟨id, some c, some p, data.VisitDate, some (paidFlag data.Paid), data.Notes⟩

/-- The statement with which `createVisit` inserts the `Visits` row. -/
def visitStmtOf (data : VisitInput) (c p : Int) : Stmt :=
  .insertVisits (some c) (some p) data.VisitDate (some (paidFlag data.Paid)) data.Notes

/-- A run of `createVisit w data`, phase by phase: `w1` after the client is
resolved to `c`, `w2` after the provider is resolved to `p`, `w3` after the
billable codes are resolved, `w6` at the end; `pre` are the statements of
resolution, `dEntries` and `iEntries` the inserts of the children, `addedD` and
`addedI` the child rows. -/
structure CreateVisitRun (w : World) (data : VisitInput) (w1 w2 w3 w6 : World) (c p : Int)
    (pre dEntries iEntries : List LogEntry) (addedD : List VisitDetailRow)
    (addedI : List VisitImageRow) : Prop where
  client : ensureClientExists w data.ClientId = .ok (w1, some c)
  provider : ensureProviderExists w1 data.ProviderId = .ok (w2, some p)
  billables : ensureBillables w2 data.details = .ok w3
  result : createVisit w data = .ok (w6, getVisitById w6.db (some (nextVisitId w.db)))
  clientNew : getClientById w.db data.ClientId = none → c = nextClientId w.db
  clientOld : getClientById w.db data.ClientId ≠ none → data.ClientId = some c
  providerNew : getProviderById w.db data.ProviderId = none → p = nextProviderId w.db
  providerOld : getProviderById w.db data.ProviderId ≠ none → data.ProviderId = some p
  visits3 : w3.db.Visits = w.db.Visits
  details3 : w3.db.VisitDetails = w.db.VisitDetails
  images3 : w3.db.VisitImages = w.db.VisitImages
  log3 : w3.log = w.log ++ pre
  preResolution : ∀ e ∈ pre, e.stmt.isResolution = true
  clientExists : getClientById w3.db (some c) ≠ none
  providerExists : getProviderById w3.db (some p) ≠ none
  codesResolved : ∀ d ∈ data.details, BillableResolved w3.db d.BillableCode
  clients6 : w6.db.Clients = w3.db.Clients
  providers6 : w6.db.Providers = w3.db.Providers
  billables6 : w6.db.Billables = w3.db.Billables
  visits6 : w6.db.Visits = w.db.Visits.insert VisitRow.VisitId (visitRowOf data c p)
  details6 : w6.db.VisitDetails.rows = w.db.VisitDetails.rows ++ addedD
  images6 : w6.db.VisitImages.rows = w.db.VisitImages.rows ++ addedI
  addedDetails : addedD.map VisitDetailRow.supplied = data.details.map (fun d =>
    (some (nextVisitId w.db), d.BillableCode, some (quantityOrDefault d.Quantity)))
  addedImages : addedI.map VisitImageRow.supplied = data.images.map (fun img =>
    (some (nextVisitId w.db), img.name, img.type, img.data))
  log6 : w6.log = w3.log ++ [⟨w3.db, visitStmtOf data c p, ⟨some (nextVisitId w.db), 1⟩⟩]
    ++ dEntries ++ iEntries
  detailStmts : dEntries.map LogEntry.stmt = data.details.map (fun d =>
    Stmt.insertVisitDetails (some (nextVisitId w.db)) d.BillableCode
      (some (quantityOrDefault d.Quantity)))
  detailBefore : ∀ e ∈ dEntries, e.before.Billables = w3.db.Billables
  imageStmts : iEntries.map LogEntry.stmt = data.images.map (fun img =>
    Stmt.insertVisitImages (some (nextVisitId w.db)) img.name img.type img.data)

/-! ## Test data -/

/-- A database with no rows, keys not declared `AUTOINCREMENT`. -/
def emptyDb : Db :=
  { Clients := ⟨false, 0, []⟩, Providers := ⟨false, 0, []⟩, Billables := [],
    Visits := ⟨false, 0, []⟩, VisitDetails := ⟨false, 0, []⟩, VisitImages := ⟨false, 0, []⟩ }

/-- A database with two clients (ids 1 and 2), one provider, two billables and one
visit (id 1) with two detail lines and one image; keys are `AUTOINCREMENT`. -/
def sampleDb : Db :=
  { Clients := ⟨true, 2, [⟨1, some "Ann", some "Lee", none, none, none, none⟩,
      ⟨2, some "Cy", some "Poe", none, none, none, none⟩]⟩
    Providers := ⟨true, 1, [⟨1, some "Bo", some "Roy", some "Ortho", none, none⟩]⟩
    Billables := [⟨some "X1", some "Exam", some 50⟩, ⟨some "P100", some "Cleaning", some 120⟩]
    Visits := ⟨true, 1, [⟨1, some 1, some 1, some "2024-01-05", some 1, none⟩]⟩
    VisitDetails := ⟨true, 2, [⟨1, some 1, some "X1", some 1⟩, ⟨2, some 1, some "P100", some 2⟩]⟩
    VisitImages := ⟨true, 1, [⟨1, some 1, some "a.png", some "image/png", some "iVBOR"⟩]⟩ }

/-- The database `sampleDb` before any statement has run. -/
def sampleWorld : World := ⟨sampleDb, []⟩

theorem maxRowid_ge (ks : List Int) (k : Int) (hk : k ∈ ks) :
    ∃ m, maxRowid ks = some m ∧ k ≤ m := by
  induction ks with
  | nil => simp at hk
  | cons a as ih =>
    rcases List.mem_cons.mp hk with h | h
    · subst h
      cases hm : maxRowid as with
      | none => exact ⟨k, by simp [maxRowid, hm], le_refl _⟩
      | some m => exact ⟨max k m, by simp [maxRowid, hm], le_max_left _ _⟩
    · obtain ⟨m, hm, hle⟩ := ih h
      exact ⟨max a m, by simp [maxRowid, hm], le_trans hle (le_max_right _ _)⟩

theorem nextRowid_gt {α : Type} (key : α → Int) (t : Table α) (r : α) (hr : r ∈ t.rows) :
    key r < t.nextRowid key := by
  obtain ⟨m, hm, hle⟩ := maxRowid_ge (t.rows.map key) (key r) (List.mem_map_of_mem key hr)
  unfold Table.nextRowid
  simp only [hm]
  split
  · exact lt_of_lt_of_le (by omega) (le_max_left _ _)
  · omega

theorem find_fresh {α : Type} (key : α → Int) (t : Table α) (mk : Int → α)
    (hmk : ∀ i, key (mk i) = i) :
    (t.insert key mk).rows.find? (fun r => sqlEq (some (key r)) (some (t.nextRowid key)))
      = some (mk (t.nextRowid key)) := by
  have hold : t.rows.find? (fun r => sqlEq (some (key r)) (some (t.nextRowid key))) = none := by
    rw [List.find?_eq_none]
    intro r hr
    have := nextRowid_gt key t r hr
    simp [sqlEq]
    omega
  simp only [Table.insert, List.find?_append, hold, Option.none_or]
  simp [sqlEq, hmk]

/-! ## Reference resolution, one reference at a time -/

theorem ensureClientExists_missing (w : World) (id : Option Int)
    (h : getClientById w.db id = none) :
    ensureClientExists w id = .ok
      (⟨{ w.db with Clients := (w.db.Clients.insert ClientRow.ClientId
            (fun i => ⟨i, some "Unknown", some "Unknown", none, none, none, none⟩)) },
        w.log ++ [⟨w.db, .insertClients (some "Unknown") (some "Unknown") none none none none,
          ⟨some (w.db.Clients.nextRowid ClientRow.ClientId), 1⟩⟩]⟩,
       some (w.db.Clients.nextRowid ClientRow.ClientId)) := by
  have hf := find_fresh ClientRow.ClientId w.db.Clients
    (fun i => ⟨i, some "Unknown", some "Unknown", none, none, none, none⟩) (fun _ => rfl)
  have h2 := h
  unfold getClientById at h2
  simp only [ensureClientExists, h, createClient, run, exec, getClientById, hf, h2]

theorem ensureProviderExists_missing (w : World) (id : Option Int)
    (h : getProviderById w.db id = none) :
    ensureProviderExists w id = .ok
      (⟨{ w.db with Providers := (w.db.Providers.insert ProviderRow.ProviderId
            (fun i => ⟨i, some "Unknown", some "Unknown", none, none, none⟩)) },
        w.log ++ [⟨w.db, .insertProviders (some "Unknown") (some "Unknown") none none none,
          ⟨some (w.db.Providers.nextRowid ProviderRow.ProviderId), 1⟩⟩]⟩,
       some (w.db.Providers.nextRowid ProviderRow.ProviderId)) := by
  have hf := find_fresh ProviderRow.ProviderId w.db.Providers
    (fun i => ⟨i, some "Unknown", some "Unknown", none, none, none⟩) (fun _ => rfl)
  have h2 := h
  unfold getProviderById at h2
  simp only [ensureProviderExists, h, createProvider, run, exec, getProviderById, hf, h2]

theorem ensureBillableExists_missing (w : World) (code : Option String)
    (h : getBillableByCode w.db code = none) :
    ensureBillableExists w code = .ok
      (⟨{ w.db with Billables := w.db.Billables ++ [⟨code, some "Auto created", some 0⟩] },
        w.log ++ [⟨w.db, .insertBillables code (some "Auto created") (some 0), ⟨none, 1⟩⟩]⟩,
       none) := by
  have hany : w.db.Billables.any (fun r => sqlEq r.BillableCode code) = false := by
    unfold getBillableByCode at h
    rw [List.find?_eq_none] at h
    rw [List.any_eq_false]
    exact h
  simp [ensureBillableExists, h, createBillable, run, exec, hany]

theorem ensureClientExists_found (w : World) (id : Option Int)
    (h : getClientById w.db id ≠ none) : ensureClientExists w id = .ok (w, id) := by
  unfold ensureClientExists
  cases hc : getClientById w.db id with
  | none => exact absurd hc h
  | some c => rfl

theorem ensureProviderExists_found (w : World) (id : Option Int)
    (h : getProviderById w.db id ≠ none) : ensureProviderExists w id = .ok (w, id) := by
  unfold ensureProviderExists
  cases hc : getProviderById w.db id with
  | none => exact absurd hc h
  | some c => rfl

theorem ensureBillableExists_found (w : World) (code : Option String)
    (h : getBillableByCode w.db code ≠ none) : ensureBillableExists w code = .ok (w, none) := by
  unfold ensureBillableExists
  cases hc : getBillableByCode w.db code with
  | none => exact absurd hc h
  | some c => rfl

theorem sqlEq_some_iff {κ : Type} [DecidableEq κ] (a : Option κ) (c : κ) :
    sqlEq a (some c) = true ↔ a = some c := by
  cases a <;> simp [sqlEq]

theorem getBillableByCode_code (db : Db) (c : String) (row : BillableRow)
    (h : getBillableByCode db (some c) = some row) : row.BillableCode = some c := by
  unfold getBillableByCode at h
  have := List.find?_some h
  exact (sqlEq_some_iff _ _).mp this

theorem getBillableByCode_append (db : Db) (c : String) (d : Option String) (k : Option Int)
    (h : getBillableByCode db (some c) = none) :
    getBillableByCode { db with Billables := db.Billables ++ [⟨some c, d, k⟩] } (some c)
      = some ⟨some c, d, k⟩ := by
  unfold getBillableByCode at h ⊢
  simp only [List.find?_append, h, Option.none_or]
  simp [sqlEq]

/-- C3: when the row for a key exists, resolving it writes nothing:
`ensureClientExists`, `ensureProviderExists` and `ensureBillableExists` leave the
database and the statement log as they were, and the first two return the id
they were given. -/
theorem C3_existing_reference_no_write (w : World) :
    (∀ id, getClientById w.db id ≠ none → ensureClientExists w id = .ok (w, id)) ∧
    (∀ id, getProviderById w.db id ≠ none → ensureProviderExists w id = .ok (w, id)) ∧
    (∀ code, getBillableByCode w.db code ≠ none →
      ∃ v, ensureBillableExists w code = .ok (w, v)) :=
  ⟨ensureClientExists_found w, ensureProviderExists_found w,
    fun code h => ⟨none, ensureBillableExists_found w code h⟩⟩

/-- C4: when no `Billables` row exists for `code`, `ensureBillableExists(code)`
succeeds and appends exactly one row to `Billables`, with the supplied code,
description `Auto created` and cost `0`; the rows that were there and every
other table are unchanged and exactly one statement is executed. -/
theorem C4_missing_billable_created (w : World) (code : Option String)
    (h : getBillableByCode w.db code = none) :
    ∃ w1 v, ensureBillableExists w code = .ok (w1, v) ∧
      w1.db.Billables = w.db.Billables ++ [⟨code, some "Auto created", some 0⟩] ∧
      w1.db.Clients = w.db.Clients ∧ w1.db.Providers = w.db.Providers ∧
      w1.db.Visits = w.db.Visits ∧ w1.db.VisitDetails = w.db.VisitDetails ∧
      w1.db.VisitImages = w.db.VisitImages ∧
      (∃ e, w1.log = w.log ++ [e]) :=
  ⟨_, _, ensureBillableExists_missing w code h, rfl, rfl, rfl, rfl, rfl, rfl, _, rfl⟩

/-! ## The phases of `createVisit` -/

theorem getClientById_some (db : Db) (id : Option Int) (row : ClientRow)
    (h : getClientById db id = some row) : id = some row.ClientId := by
  unfold getClientById at h
  have := List.find?_some h
  cases id with
  | none => simp [sqlEq] at this
  | some k => simp [sqlEq] at this; simp [this]

theorem getProviderById_some (db : Db) (id : Option Int) (row : ProviderRow)
    (h : getProviderById db id = some row) : id = some row.ProviderId := by
  unfold getProviderById at h
  have := List.find?_some h
  cases id with
  | none => simp [sqlEq] at this
  | some k => simp [sqlEq] at this; simp [this]

/-- Client resolution always succeeds, touches only `Clients`, writes only
resolution statements, and returns an id whose row exists afterwards. -/
theorem ensureClientExists_spec (w : World) (id : Option Int) :
    ∃ w1 c T entries, ensureClientExists w id = .ok (w1, some c) ∧
      w1.db = { w.db with Clients := T } ∧
      getClientById w1.db (some c) ≠ none ∧
      w1.log = w.log ++ entries ∧ (∀ e ∈ entries, e.stmt.isResolution = true) ∧
      (getClientById w.db id = none → c = nextClientId w.db) ∧
      (getClientById w.db id ≠ none → id = some c) := by
  cases h : getClientById w.db id with
  | none =>
    refine ⟨_, _, _, _, ensureClientExists_missing w id h, rfl, ?_, rfl, ?_, fun _ => rfl,
      fun hc => absurd rfl hc⟩
    · have hf := find_fresh ClientRow.ClientId w.db.Clients
        (fun i => ⟨i, some "Unknown", some "Unknown", none, none, none, none⟩) (fun _ => rfl)
      simp only [getClientById, hf]
      simp
    · intro e he
      simp only [List.mem_singleton] at he
      subst he
      rfl
  | some row =>
    have hid := getClientById_some w.db id row h
    refine ⟨w, row.ClientId, w.db.Clients, [], ?_, rfl, ?_, by simp, by simp, by simp,
      fun _ => hid⟩
    · rw [ensureClientExists_found w id (by simp [h]), hid]
    · rw [← hid, h]; simp

/-- Provider resolution always succeeds, touches only `Providers`, writes only
resolution statements, and returns an id whose row exists afterwards. -/
theorem ensureProviderExists_spec (w : World) (id : Option Int) :
    ∃ w1 c T entries, ensureProviderExists w id = .ok (w1, some c) ∧
      w1.db = { w.db with Providers := T } ∧
      getProviderById w1.db (some c) ≠ none ∧
      w1.log = w.log ++ entries ∧ (∀ e ∈ entries, e.stmt.isResolution = true) ∧
      (getProviderById w.db id = none → c = nextProviderId w.db) ∧
      (getProviderById w.db id ≠ none → id = some c) := by
  cases h : getProviderById w.db id with
  | none =>
    refine ⟨_, _, _, _, ensureProviderExists_missing w id h, rfl, ?_, rfl, ?_, fun _ => rfl,
      fun hc => absurd rfl hc⟩
    · have hf := find_fresh ProviderRow.ProviderId w.db.Providers
        (fun i => ⟨i, some "Unknown", some "Unknown", none, none, none⟩) (fun _ => rfl)
      simp only [getProviderById, hf]
      simp
    · intro e he
      simp only [List.mem_singleton] at he
      subst he
      rfl
  | some row =>
    have hid := getProviderById_some w.db id row h
    refine ⟨w, row.ProviderId, w.db.Providers, [], ?_, rfl, ?_, by simp, by simp, by simp,
      fun _ => hid⟩
    · rw [ensureProviderExists_found w id (by simp [h]), hid]
    · rw [← hid, h]; simp

theorem BillableResolved_append (db db1 : Db) (added : List BillableRow)
    (code : Option String) (hdb : db1.Billables = db.Billables ++ added)
    (h : BillableResolved db code) : BillableResolved db1 code := by
  obtain ⟨⟨row, hrow, hc⟩, hfind⟩ := h
  refine ⟨⟨row, by rw [hdb]; exact List.mem_append_left _ hrow, hc⟩, fun hne => ?_⟩
  have h1 := hfind hne
  unfold getBillableByCode at h1 ⊢
  rw [hdb, List.find?_append]
  cases hf : List.find? (fun r => sqlEq r.BillableCode code) db.Billables with
  | none => exact absurd hf h1
  | some r => simp

/-- One billable resolution always succeeds, only appends to `Billables`, writes only
resolution statements, and leaves the code resolved. -/
theorem ensureBillableExists_spec (w : World) (code : Option String) :
    ∃ w1 added entries, ensureBillableExists w code = .ok (w1, none) ∧
      w1.db = { w.db with Billables := w.db.Billables ++ added } ∧
      w1.log = w.log ++ entries ∧ (∀ e ∈ entries, e.stmt.isResolution = true) ∧
      BillableResolved w1.db code := by
  cases h : getBillableByCode w.db code with
  | none =>
    refine ⟨_, _, _, ensureBillableExists_missing w code h, rfl, rfl, ?_,
      ⟨⟨code, some "Auto created", some 0⟩, ?_, rfl⟩, ?_⟩
    · intro e he
      simp only [List.mem_singleton] at he
      subst he
      rfl
    · simp
    · intro hne
      obtain ⟨c, rfl⟩ := Option.ne_none_iff_exists'.mp hne
      rw [getBillableByCode_append w.db c _ _ h]
      simp
  | some row =>
    refine ⟨w, [], [], ensureBillableExists_found w code (by simp [h]), by simp, by simp,
      by simp, ⟨row, ?_, ?_⟩, fun _ => by simp [h]⟩
    · unfold getBillableByCode at h
      exact List.mem_of_find?_eq_some h
    · cases code with
      | none =>
        unfold getBillableByCode at h
        have := List.find?_some h
        simp [sqlEq] at this
      | some c => exact getBillableByCode_code w.db c row h

/-- The resolution loop over the detail lines always succeeds, only appends to
`Billables`, writes only resolution statements, and leaves every line's code
resolved. -/
theorem ensureBillables_spec (ds : List DetailInput) : ∀ w : World,
    ∃ w3 added entries, ensureBillables w ds = .ok w3 ∧
      w3.db = { w.db with Billables := w.db.Billables ++ added } ∧
      w3.log = w.log ++ entries ∧ (∀ e ∈ entries, e.stmt.isResolution = true) ∧
      (∀ d ∈ ds, BillableResolved w3.db d.BillableCode) := by
  induction ds with
  | nil =>
    intro w
    exact ⟨w, [], [], rfl, by simp, by simp, by simp, by simp⟩
  | cons d ds ih =>
    intro w
    obtain ⟨w1, a1, e1, h1, hdb1, hlog1, hres1, hok1⟩ := ensureBillableExists_spec w d.BillableCode
    obtain ⟨w3, a3, e3, h3, hdb3, hlog3, hres3, hok3⟩ := ih w1
    refine ⟨w3, a1 ++ a3, e1 ++ e3, ?_, ?_, ?_, ?_, ?_⟩
    · simp only [ensureBillables, h1, h3]
    · rw [hdb3, hdb1]; simp
    · rw [hlog3, hlog1]; simp
    · intro e he
      rcases List.mem_append.mp he with h | h
      · exact hres1 e h
      · exact hres3 e h
    · intro x hx
      rcases List.mem_cons.mp hx with h | h
      · subst h
        exact BillableResolved_append w1.db w3.db a3 _ (by rw [hdb3]) hok1
      · exact hok3 x h

/-- The loop that inserts the detail lines always succeeds, appends one
`VisitDetails` row per line in order and nothing else, and executes one insert
per line in order. -/
theorem insertDetails_spec (v : Option Int) (ds : List DetailInput) : ∀ w : World,
    ∃ w5 T added entries, insertDetails v w ds = .ok w5 ∧
      w5.db = { w.db with VisitDetails := T } ∧
      T.rows = w.db.VisitDetails.rows ++ added ∧
      added.map VisitDetailRow.supplied =
        ds.map (fun d => (v, d.BillableCode, some (quantityOrDefault d.Quantity))) ∧
      w5.log = w.log ++ entries ∧
      entries.map LogEntry.stmt = ds.map (fun d =>
        Stmt.insertVisitDetails v d.BillableCode (some (quantityOrDefault d.Quantity))) ∧
      (∀ e ∈ entries, e.before.Billables = w.db.Billables ∧ e.before.Visits = w.db.Visits ∧
        e.before.Clients = w.db.Clients ∧ e.before.Providers = w.db.Providers) := by
  induction ds with
  | nil =>
    intro w
    exact ⟨w, w.db.VisitDetails, [], [], rfl, rfl, by simp, rfl, by simp, rfl, by simp⟩
  | cons d ds ih =>
    intro w
    obtain ⟨w5, T, added, entries, h5, hdb, hrows, hadd, hlog, hstmts, hbefore⟩ :=
      ih ⟨{ w.db with VisitDetails := (w.db.VisitDetails.insert VisitDetailRow.DetailId
              (fun i => ⟨i, v, d.BillableCode, some (quantityOrDefault d.Quantity)⟩)) },
          w.log ++ [⟨w.db, .insertVisitDetails v d.BillableCode
            (some (quantityOrDefault d.Quantity)),
            ⟨some (w.db.VisitDetails.nextRowid VisitDetailRow.DetailId), 1⟩⟩]⟩
    refine ⟨w5, T,
      ⟨w.db.VisitDetails.nextRowid VisitDetailRow.DetailId, v, d.BillableCode,
        some (quantityOrDefault d.Quantity)⟩ :: added,
      ⟨w.db, .insertVisitDetails v d.BillableCode (some (quantityOrDefault d.Quantity)),
        ⟨some (w.db.VisitDetails.nextRowid VisitDetailRow.DetailId), 1⟩⟩ :: entries,
      ?_, ?_, ?_, ?_, ?_, ?_, ?_⟩
    · simp only [insertDetails, run, exec]
      exact h5
    · rw [hdb]
    · rw [hrows]
      simp [Table.insert]
    · simp only [List.map_cons, hadd]
      rfl
    · rw [hlog]
      simp
    · simp only [List.map_cons, hstmts]
    · intro e he
      rcases List.mem_cons.mp he with h | h
      · subst h
        exact ⟨rfl, rfl, rfl, rfl⟩
      · exact hbefore e h

/-- The loop that inserts the images always succeeds, appends one `VisitImages`
row per image in order and nothing else, and executes one insert per image in
order. -/
theorem insertImages_spec (v : Option Int) (imgs : List ImageInput) : ∀ w : World,
    ∃ w6 T added entries, insertImages v w imgs = .ok w6 ∧
      w6.db = { w.db with VisitImages := T } ∧
      T.rows = w.db.VisitImages.rows ++ added ∧
      added.map VisitImageRow.supplied =
        imgs.map (fun img => (v, img.name, img.type, img.data)) ∧
      w6.log = w.log ++ entries ∧
      entries.map LogEntry.stmt = imgs.map (fun img =>
        Stmt.insertVisitImages v img.name img.type img.data) := by
  induction imgs with
  | nil =>
    intro w
    exact ⟨w, w.db.VisitImages, [], [], rfl, rfl, by simp, rfl, by simp, rfl⟩
  | cons img imgs ih =>
    intro w
    obtain ⟨w6, T, added, entries, h6, hdb, hrows, hadd, hlog, hstmts⟩ :=
      ih ⟨{ w.db with VisitImages := (w.db.VisitImages.insert VisitImageRow.ImageId
              (fun i => ⟨i, v, img.name, img.type, img.data⟩)) },
          w.log ++ [⟨w.db, .insertVisitImages v img.name img.type img.data,
            ⟨some (w.db.VisitImages.nextRowid VisitImageRow.ImageId), 1⟩⟩]⟩
    refine ⟨w6, T,
      ⟨w.db.VisitImages.nextRowid VisitImageRow.ImageId, v, img.name, img.type, img.data⟩
        :: added,
      ⟨w.db, .insertVisitImages v img.name img.type img.data,
        ⟨some (w.db.VisitImages.nextRowid VisitImageRow.ImageId), 1⟩⟩ :: entries,
      ?_, ?_, ?_, ?_, ?_, ?_⟩
    · simp only [insertImages, run, exec]
      exact h6
    · rw [hdb]
    · rw [hrows]
      simp [Table.insert]
    · simp only [List.map_cons, hadd]
      rfl
    · rw [hlog]
      simp
    · simp only [List.map_cons, hstmts]

/-- Every call of `createVisit` runs through all its phases and returns. -/
theorem createVisit_run (w : World) (data : VisitInput) :
    ∃ w1 w2 w3 w6 c p pre dEntries iEntries addedD addedI,
      CreateVisitRun w data w1 w2 w3 w6 c p pre dEntries iEntries addedD addedI := by
  obtain ⟨w1, c, TC, eA, hA, hdbA, hcA, hlogA, hresA, hnewA, holdA⟩ :=
    ensureClientExists_spec w data.ClientId
  obtain ⟨w2, p, TP, eB, hB, hdbB, hcB, hlogB, hresB, hnewB, holdB⟩ :=
    ensureProviderExists_spec w1 data.ProviderId
  obtain ⟨w3, aC, eC, hC, hdbC, hlogC, hresC, hokC⟩ := ensureBillables_spec data.details w2
  have hv3 : w3.db.Visits = w.db.Visits := by rw [hdbC, hdbB, hdbA]
  have hvid : nextVisitId w3.db = nextVisitId w.db := by unfold nextVisitId; rw [hv3]
  obtain ⟨w4, hw4⟩ : ∃ w4 : World, w4 =
      ⟨{ w3.db with Visits := (w3.db.Visits.insert VisitRow.VisitId (visitRowOf data c p)) },
        w3.log ++ [⟨w3.db, visitStmtOf data c p, ⟨some (nextVisitId w.db), 1⟩⟩]⟩ := ⟨_, rfl⟩
  obtain ⟨w5, TD, addedD, dEntries, hE, hdbE, hrowsE, haddE, hlogE, hstE, hbefE⟩ :=
    insertDetails_spec (some (nextVisitId w.db)) data.details w4
  obtain ⟨w6, TI, addedI, iEntries, hF, hdbF, hrowsF, haddF, hlogF, hstF⟩ :=
    insertImages_spec (some (nextVisitId w.db)) data.images w5
  have hD : run w3 (.insertVisits (some c) (some p) data.VisitDate (some (paidFlag data.Paid))
      data.Notes) = .ok (w4, ⟨some (nextVisitId w.db), 1⟩) := by
    rw [hw4, ← hvid]; rfl
  have hprov : w1.db.Providers = w.db.Providers := by rw [hdbA]
  refine ⟨w1, w2, w3, w6, c, p, eA ++ eB ++ eC, dEntries, iEntries, addedD, addedI, ?_⟩
  constructor
  · exact hA
  · exact hB
  · exact hC
  · simp only [createVisit, bind, Except.bind, hA, hB, hC, hD, hE, hF]
    rfl
  · exact hnewA
  · exact holdA
  · intro h
    have := hnewB (by unfold getProviderById at h ⊢; rw [hprov]; exact h)
    rw [this]; unfold nextProviderId; rw [hprov]
  · intro h
    exact holdB (by unfold getProviderById at h ⊢; rw [hprov]; exact h)
  · exact hv3
  · rw [hdbC, hdbB, hdbA]
  · rw [hdbC, hdbB, hdbA]
  · rw [hlogC, hlogB, hlogA]; simp
  · intro e he
    simp only [List.mem_append] at he
    rcases he with (h | h) | h
    · exact hresA e h
    · exact hresB e h
    · exact hresC e h
  · have : w3.db.Clients = w1.db.Clients := by rw [hdbC, hdbB]
    unfold getClientById at hcA ⊢
    rw [this]; exact hcA
  · have : w3.db.Providers = w2.db.Providers := by rw [hdbC]
    unfold getProviderById at hcB ⊢
    rw [this]; exact hcB
  · exact hokC
  · rw [hdbF, hdbE, hw4]
  · rw [hdbF, hdbE, hw4]
  · rw [hdbF, hdbE, hw4]
  · rw [hdbF, hdbE, hw4, hv3]
  · rw [hdbF, hdbE]; simp only; rw [hrowsE, hw4]
    show w3.db.VisitDetails.rows ++ addedD = _
    rw [hdbC, hdbB, hdbA]
  · rw [hdbF]; simp only; rw [hrowsF, hdbE, hw4]
    show w3.db.VisitImages.rows ++ addedI = _
    rw [hdbC, hdbB, hdbA]
  · exact haddE
  · exact haddF
  · rw [hlogF, hlogE, hw4]
  · exact hstE
  · intro e he
    rw [(hbefE e he).1, hw4]
  · exact hstF

theorem filter_added_details (v : Int) (added : List VisitDetailRow) (ds : List DetailInput)
    (h : added.map VisitDetailRow.supplied = ds.map (fun d =>
      (some v, d.BillableCode, some (quantityOrDefault d.Quantity)))) :
    added.filter (fun r => sqlEq r.VisitId (some v)) = added := by
  rw [List.filter_eq_self]
  intro r hr
  have hm : r.supplied ∈ ds.map (fun d =>
      (some v, d.BillableCode, some (quantityOrDefault d.Quantity))) := by
    rw [← h]; exact List.mem_map_of_mem _ hr
  obtain ⟨d, _, hd⟩ := List.mem_map.mp hm
  have : r.VisitId = some v := by
    have := congrArg Prod.fst hd
    simpa [VisitDetailRow.supplied] using this.symm
  simp [this, sqlEq]

theorem filter_added_images (v : Int) (added : List VisitImageRow) (imgs : List ImageInput)
    (h : added.map VisitImageRow.supplied = imgs.map (fun img =>
      (some v, img.name, img.type, img.data))) :
    added.filter (fun r => sqlEq r.VisitId (some v)) = added := by
  rw [List.filter_eq_self]
  intro r hr
  have hm : r.supplied ∈ imgs.map (fun img => (some v, img.name, img.type, img.data)) := by
    rw [← h]; exact List.mem_map_of_mem _ hr
  obtain ⟨d, _, hd⟩ := List.mem_map.mp hm
  have : r.VisitId = some v := by
    have := congrArg Prod.fst hd
    simpa [VisitImageRow.supplied] using this.symm
  simp [this, sqlEq]

theorem find_after_delete {α : Type} (rows : List α) (cond : α → Bool) :
    (rows.filter (fun r => !cond r)).find? cond = none := by
  rw [List.find?_eq_none]
  intro r hr
  have := (List.mem_filter.mp hr).2
  simpa using this

theorem filter_after_delete {α : Type} (rows : List α) (cond : α → Bool) :
    (rows.filter (fun r => !cond r)).filter cond = [] := by
  rw [List.filter_eq_nil_iff]
  intro r hr
  have := (List.mem_filter.mp hr).2
  simpa using this

theorem deleteVisit_eq (w : World) (id : Option Int) :
    deleteVisit w id = .ok
      ⟨{ w.db with
          VisitDetails := w.db.VisitDetails.delete (fun r => sqlEq r.VisitId id)
          VisitImages := w.db.VisitImages.delete (fun r => sqlEq r.VisitId id)
          Visits := w.db.Visits.delete (fun r => sqlEq (some r.VisitId) id) },
        w.log ++
          [⟨w.db, .deleteVisitDetails id,
              ⟨none, w.db.VisitDetails.count (fun r => sqlEq r.VisitId id)⟩⟩,
           ⟨{ w.db with VisitDetails := w.db.VisitDetails.delete (fun r => sqlEq r.VisitId id) },
              .deleteVisitImages id,
              ⟨none, w.db.VisitImages.count (fun r => sqlEq r.VisitId id)⟩⟩,
           ⟨{ w.db with
                VisitDetails := w.db.VisitDetails.delete (fun r => sqlEq r.VisitId id)
                VisitImages := w.db.VisitImages.delete (fun r => sqlEq r.VisitId id) },
              .deleteVisits id,
              ⟨none, w.db.Visits.count (fun r => sqlEq (some r.VisitId) id)⟩⟩]⟩ := by
  simp [deleteVisit, run, exec, bind, Except.bind, pure, Except.pure]

/-- C7: `deleteVisit(id)` succeeds; afterwards `getVisitById(id)` is `undefined`, the
queries for the `VisitDetails` and `VisitImages` rows of `id` return no row, and
for a non-null `id` no row of either table carries it. The call executes
exactly three statements, in the order: delete from `VisitDetails`, delete from
`VisitImages`, delete from `Visits`. -/
theorem C7_deleteVisit_removes_aggregate (w : World) (id : Option Int) :
    ∃ w3 e1 e2 e3, deleteVisit w id = .ok w3 ∧
      getVisitById w3.db id = none ∧
      w3.db.VisitDetails.rows.filter (fun r => sqlEq r.VisitId id) = [] ∧
      w3.db.VisitImages.rows.filter (fun r => sqlEq r.VisitId id) = [] ∧
      (∀ k, id = some k → (∀ r ∈ w3.db.VisitDetails.rows, r.VisitId ≠ some k) ∧
        (∀ r ∈ w3.db.VisitImages.rows, r.VisitId ≠ some k) ∧
        (∀ r ∈ w3.db.Visits.rows, r.VisitId ≠ k)) ∧
      w3.log = w.log ++ [e1, e2, e3] ∧
      e1.stmt = .deleteVisitDetails id ∧ e2.stmt = .deleteVisitImages id ∧
      e3.stmt = .deleteVisits id := by
  refine ⟨_, _, _, _, deleteVisit_eq w id, ?_, ?_, ?_, ?_, rfl, rfl, rfl, rfl⟩
  · simp only [getVisitById, Table.delete, find_after_delete]
  · simp only [Table.delete, filter_after_delete]
  · simp only [Table.delete, filter_after_delete]
  · intro k hk
    subst hk
    refine ⟨?_, ?_, ?_⟩
    · intro r hr heq
      have := (List.mem_filter.mp hr).2
      simp [heq, sqlEq] at this
    · intro r hr heq
      have := (List.mem_filter.mp hr).2
      simp [heq, sqlEq] at this
    · intro r hr
      have := (List.mem_filter.mp hr).2
      simpa [sqlEq] using this

/-- C3 (witness): client 2, provider 1 and the code `P100` exist in `sampleWorld`. -/
theorem C3_existing_reference_no_write_witness :
    getClientById sampleWorld.db (some 2) ≠ none ∧
    getProviderById sampleWorld.db (some 1) ≠ none ∧
    getBillableByCode sampleWorld.db (some "P100") ≠ none ∧
    ensureClientExists sampleWorld (some 2) = .ok (sampleWorld, some 2) ∧
    ensureProviderExists sampleWorld (some 1) = .ok (sampleWorld, some 1) ∧
    (∃ v, ensureBillableExists sampleWorld (some "P100") = .ok (sampleWorld, v)) :=
  ⟨by decide, by decide, by decide,
    (C3_existing_reference_no_write sampleWorld).1 (some 2) (by decide),
    (C3_existing_reference_no_write sampleWorld).2.1 (some 1) (by decide),
    (C3_existing_reference_no_write sampleWorld).2.2 (some "P100") (by decide)⟩

/-- C4 (witness): the code `Z9` is missing in `sampleWorld`. -/
theorem C4_missing_billable_created_witness :
    getBillableByCode sampleWorld.db (some "Z9") = none ∧
    ∃ w1 v, ensureBillableExists sampleWorld (some "Z9") = .ok (w1, v) ∧
      w1.db.Billables = sampleWorld.db.Billables ++
        [⟨some "Z9", some "Auto created", some 0⟩] ∧
      w1.db.Clients = sampleWorld.db.Clients ∧ w1.db.Providers = sampleWorld.db.Providers ∧
      w1.db.Visits = sampleWorld.db.Visits ∧
      w1.db.VisitDetails = sampleWorld.db.VisitDetails ∧
      w1.db.VisitImages = sampleWorld.db.VisitImages ∧
      (∃ e, w1.log = sampleWorld.log ++ [e]) :=
  ⟨by decide, C4_missing_billable_created sampleWorld (some "Z9") (by decide)⟩

theorem ChildrenReferenceVisits_empty : ChildrenReferenceVisits emptyDb := by
  constructor <;> intro r hr <;> simp [emptyDb] at hr

/-- In a database with referential integrity no child row carries the `VisitId` that
the next insert into `Visits` generates. -/
theorem ChildrenReferenceVisits_fresh (db : Db) (h : ChildrenReferenceVisits db) :
    (∀ r ∈ db.VisitDetails.rows, r.VisitId ≠ some (nextVisitId db)) ∧
    (∀ r ∈ db.VisitImages.rows, r.VisitId ≠ some (nextVisitId db)) := by
  constructor
  · intro r hr heq
    obtain ⟨v, hv, hrv⟩ := h.1 r hr
    have := nextRowid_gt VisitRow.VisitId db.Visits v hv
    rw [hrv] at heq
    injection heq with heq
    unfold nextVisitId at heq
    omega
  · intro r hr heq
    obtain ⟨v, hv, hrv⟩ := h.2 r hr
    have := nextRowid_gt VisitRow.VisitId db.Visits v hv
    rw [hrv] at heq
    injection heq with heq
    unfold nextVisitId at heq
    omega

/-- In a database with referential integrity a visit that does not exist has no
child rows. -/
theorem ChildrenReferenceVisits_absent (db : Db) (id : Option Int)
    (h : ChildrenReferenceVisits db) (hv : getVisitById db id = none) :
    db.VisitDetails.rows.filter (fun r => sqlEq r.VisitId id) = [] ∧
    db.VisitImages.rows.filter (fun r => sqlEq r.VisitId id) = [] := by
  have hnone : ∀ v ∈ db.Visits.rows, sqlEq (some v.VisitId) id = false := by
    intro v hvm
    unfold getVisitById at hv
    cases hf : db.Visits.rows.find? (fun r => sqlEq (some r.VisitId) id) with
    | none =>
      rw [List.find?_eq_none] at hf
      simpa using hf v hvm
    | some x => simp [hf] at hv
  constructor
  · rw [List.filter_eq_nil_iff]
    intro r hr hc
    obtain ⟨v, hvm, hrv⟩ := h.1 r hr
    rw [hrv, hnone v hvm] at hc
    cases hc
  · rw [List.filter_eq_nil_iff]
    intro r hr hc
    obtain ⟨v, hvm, hrv⟩ := h.2 r hr
    rw [hrv, hnone v hvm] at hc
    cases hc

/-- `createVisit` keeps referential integrity. -/
theorem createVisit_keeps_integrity (w : World) (data : VisitInput)
    (h : ChildrenReferenceVisits w.db) :
    ∃ w6 v, createVisit w data = .ok (w6, v) ∧ ChildrenReferenceVisits w6.db := by
  obtain ⟨w1, w2, w3, w6, c, p, pre, dE, iE, addedD, addedI, hr⟩ := createVisit_run w data
  have hnew : visitRowOf data c p (nextVisitId w.db) ∈ w6.db.Visits.rows := by
    rw [hr.visits6]
    exact List.mem_append_right _ (List.mem_singleton.mpr rfl)
  have hold : ∀ v ∈ w.db.Visits.rows, v ∈ w6.db.Visits.rows := by
    intro v hv
    rw [hr.visits6]
    exact List.mem_append_left _ hv
  have hfd := filter_added_details _ addedD data.details hr.addedDetails
  have hfi := filter_added_images _ addedI data.images hr.addedImages
  refine ⟨w6, _, hr.result, ?_, ?_⟩
  · intro r hrm
    rw [hr.details6] at hrm
    rcases List.mem_append.mp hrm with hm | hm
    · obtain ⟨v, hv, hrv⟩ := h.1 r hm
      exact ⟨v, hold v hv, hrv⟩
    · rw [← hfd] at hm
      have := (List.mem_filter.mp hm).2
      exact ⟨_, hnew, (sqlEq_some_iff _ _).mp this⟩
  · intro r hrm
    rw [hr.images6] at hrm
    rcases List.mem_append.mp hrm with hm | hm
    · obtain ⟨v, hv, hrv⟩ := h.2 r hm
      exact ⟨v, hold v hv, hrv⟩
    · rw [← hfi] at hm
      have := (List.mem_filter.mp hm).2
      exact ⟨_, hnew, (sqlEq_some_iff _ _).mp this⟩

/-- `deleteVisit` keeps referential integrity. -/
theorem deleteVisit_keeps_integrity (w : World) (id : Option Int)
    (h : ChildrenReferenceVisits w.db) :
    ∃ w3, deleteVisit w id = .ok w3 ∧ ChildrenReferenceVisits w3.db := by
  refine ⟨_, deleteVisit_eq w id, ?_, ?_⟩
  · intro r hr
    obtain ⟨hm, hc⟩ := List.mem_filter.mp hr
    obtain ⟨v, hv, hrv⟩ := h.1 r hm
    refine ⟨v, List.mem_filter.mpr ⟨hv, ?_⟩, hrv⟩
    simp only [hrv] at hc
    exact hc
  · intro r hr
    obtain ⟨hm, hc⟩ := List.mem_filter.mp hr
    obtain ⟨v, hv, hrv⟩ := h.2 r hm
    refine ⟨v, List.mem_filter.mpr ⟨hv, ?_⟩, hrv⟩
    simp only [hrv] at hc
    exact hc

end SmileDesign
